import Mathlib

/-!
# Verification of the Batch Submission Client (`BatchProcessor.py`)

This file gives a shallow embedding of the batch-processing pipeline in
`BatchProcessor.py` and proves properties of it.

Modelling conventions:

* The filesystem read side is an oracle `readFS : String → ReadOutcome`
  describing, for each path, whether opening/reading succeeds, raises
  `FileNotFoundError`, or raises another I/O exception.
* The filesystem write side is a finite map `OutFS := String → Option String`
  (output files written so far), plus an oracle `writeOk : String → Bool`
  saying whether opening a path for writing succeeds.
* The external service is a triple of oracles: `create` (batch submission),
  `retrieve : Nat → Except String String` giving the `processing_status`
  string returned by the `t`-th status poll (or the exception it raises), and
  `fetchResults : Except String (List BatchResult)` for the single result
  fetch.  Statuses and result types are kept as raw strings, exactly as the
  Python code compares them.
* Exceptions are `Except String`; a `try/except` block is a `match` on it.
* `asyncio.sleep` and the poll calls are recorded in an event trace.
* The `while` loop of `process_batch_results` is driven by a `fuel`
  parameter; `RunOutcome.fuelOut` marks the (model-only) case where fuel ran
  out while the loop was still running.
-/

/-- A line emitted through the `logging` module: `logging.info` or
`logging.error`. -/
inductive LogMsg
| info (s : String)
| error (s : String)
deriving DecidableEq

/-- Observable events of the polling loop: a successful status poll
(`client.messages.batches.retrieve`), and a sleep of a given number of
seconds (`asyncio.sleep`). -/
inductive Event
| poll
| sleep (seconds : Nat)
deriving DecidableEq

/-- Outcome of `open(file_path, 'r').read()`: content, `FileNotFoundError`,
or any other exception. -/
inductive ReadOutcome
| ok (content : String)
| notFound
| ioError (msg : String)

/-- Embeds `BatchProcessor.read_file_content` (lines 32-42): returns the
file content, and on `FileNotFoundError` or any other exception logs and
returns the empty string. -/
def read_file_content (readFS : String → ReadOutcome) (file_path : String) : String :=
  match readFS file_path with
  | .ok c => c
  | .notFound => ""
  | .ioError _ => ""

/-- Embeds the `/` path join `self.base_dir / filename` for relative
`filename`s (the only kind the program builds). -/
def pathJoin (base_dir filename : String) : String :=
  base_dir ++ "/" ++ filename

/-- Index of the last occurrence of `c` in `l` (Python `str.rfind`),
`none` if absent. -/
def rfindIdx (c : Char) (l : List Char) : Option Nat :=
  let r := l.reverse.indexOf c
  if r < l.length then some (l.length - 1 - r) else none

/-- Embeds `PurePath.stem` of CPython applied to a path's final component:
`i = name.rfind('.')`; if `0 < i < len(name) - 1` the stem is `name[:i]`,
otherwise the whole name. -/
def pathStem (name : String) : String :=
  let l := name.toList
  match rfindIdx '.' l with
  | some i => if 0 < i ∧ i < l.length - 1 then String.mk (l.take i) else name
  | none => name

/-- Embeds `PurePath.suffix` of CPython applied to a path's final
component: `i = name.rfind('.')`; if `0 < i < len(name) - 1` the suffix is
`name[i:]`, otherwise empty. -/
def pathSfx (name : String) : String :=
  let l := name.toList
  match rfindIdx '.' l with
  | some i => if 0 < i ∧ i < l.length - 1 then String.mk (l.drop i) else ""
  | none => ""

/-- The final component of a path (`PurePath.name`): everything after the
last separator. -/
def pathName (p : String) : String :=
  match rfindIdx '/' p.toList with
  | some i => String.mk (p.toList.drop (i + 1))
  | none => p

/-- Embeds `PurePath.with_name`: replaces the final component of `p` by
`newName`. -/
def pathWithName (p newName : String) : String :=
  match rfindIdx '/' p.toList with
  | some i => String.mk (p.toList.take (i + 1)) ++ newName
  | none => newName

/-- Decimal digit to character, as Python `str(int)` renders digits. -/
def digitChar : Nat → Char
| 0 => '0'
| 1 => '1'
| 2 => '2'
| 3 => '3'
| 4 => '4'
| 5 => '5'
| 6 => '6'
| 7 => '7'
| 8 => '8'
| 9 => '9'
| _ => '*'

/-- Fuel-driven most-significant-first decimal digit rendering; `fuel ≥ n`
suffices. -/
def natStrAux : Nat → Nat → List Char
| 0, _ => []
| fuel + 1, n => if n = 0 then [] else natStrAux fuel (n / 10) ++ [digitChar (n % 10)]

/-- Embeds Python decimal rendering `f"{n}"` of a nonnegative integer. -/
def natStr (n : Nat) : String :=
  if n = 0 then "0" else String.mk (natStrAux n n)

/-- The fixed system prompt of `BatchProcessor.__init__` (lines 22-30). -/
def system_prompt : String :=
  "You are an expert language editor specializing in optimizing text for voice synthesis. Your task is to modify the given text to make it optimal for reading aloud. \n        Follow these instructions to modify the text:\n        1. Remove all numerical references, footnotes, and page numbers.\n        2. Join words that are hyphenated at the end of lines.\n        3. Remove excessive spaces and empty lines.\n        4. Preserve correct punctuation and sentence structure.\n        5. Maintain italics and other meaningful text formatting if marked.\n        6. Adjust the text to be natural for reading aloud while preserving the original meaning.\n        7. Return only the modified text without any comments or explanations."

/-- The `MessageCreateParamsNonStreaming` payload built for each request
(lines 67-81), with the single user message flattened to its text. -/
structure MessageCreateParams where
  model : String
  max_tokens : Nat
  temperature : Nat
  system : String
  message_text : String
deriving DecidableEq

/-- A batch `Request` (lines 65-82). -/
structure Request where
  custom_id : String
  params : MessageCreateParams
deriving DecidableEq

/-- The request constructed for one file with content `content` under
custom id `custom_id` (lines 65-82). -/
def mkRequest (custom_id content : String) : Request :=
  { custom_id := custom_id
    params :=
      { model := "claude-3-5-haiku-20241022"
        max_tokens := 8192
        temperature := 0
        system := system_prompt
        message_text := "Modify the given text for voice synthesis:\n\n" ++ content } }

/-- Recursion of `prepare_batch_requests` over the file list, carrying the
1-based `enumerate` index.  Returns the request list and the
`custom_id_to_filename` association entries, in insertion order. -/
def prepareAux (readFS : String → ReadOutcome) (base_dir : String) :
    List String → Nat → List Request × List (String × String)
| [], _ => ([], [])
| filename :: rest, idx =>
  let content := read_file_content readFS (pathJoin base_dir filename)
  let tail := prepareAux readFS base_dir rest (idx + 1)
  if content ≠ "" then
    (mkRequest ("req_" ++ natStr idx) content :: tail.1,
      ("req_" ++ natStr idx, filename) :: tail.2)
  else tail

/-- Embeds `BatchProcessor.prepare_batch_requests` (lines 54-84).  The
`prior` argument is the value of `self.custom_id_to_filename` before the
call; line 57 resets it to a fresh empty dict, so `prior` is discarded.
Returns `(requests, custom_id_to_filename)`. -/
def prepare_batch_requests (readFS : String → ReadOutcome) (base_dir : String)
    (_prior : List (String × String)) (files_to_process : List String) :
    List Request × List (String × String) :=
  prepareAux readFS base_dir files_to_process 1

/-- The written output files: path to content, `none` if not written. -/
def OutFS := String → Option String

/-- Point update of the output filesystem. -/
def fsUpdate (fs : OutFS) (p v : String) : OutFS :=
  fun q => if q = p then some v else fs q

/-- The sibling output path built at line 47:
`file_path.with_name(f"{file_path.stem}-OPTIMIZED{file_path.suffix}")`. -/
def optimizedPath (file_path : String) : String :=
  pathWithName file_path
    (pathStem (pathName file_path) ++ "-OPTIMIZED" ++ pathSfx (pathName file_path))

/-- Embeds `open(optimized_path, 'w').write(content)`: succeeds exactly when
the `writeOk` oracle allows the path, raising otherwise. -/
def openWrite (writeOk : String → Bool) (fs : OutFS) (p content : String) :
    Except String OutFS :=
  if writeOk p then .ok (fsUpdate fs p content) else .error "write failed"

/-- Embeds `BatchProcessor.write_optimized_content` (lines 44-52): tries to
write `content` to the `-OPTIMIZED` sibling of `file_path`; any exception is
caught and logged.  Returns the (possibly unchanged) output filesystem and
the log lines emitted. -/
def write_optimized_content (writeOk : String → Bool) (fs : OutFS)
    (file_path content : String) : OutFS × List LogMsg :=
  match openWrite writeOk fs (optimizedPath file_path) content with
  | .ok fs2 =>
    (fs2, [.info ("Successfully wrote optimized content to " ++ optimizedPath file_path)])
  | .error e =>
    (fs, [.error ("Error writing to " ++ optimizedPath file_path ++ ": " ++ e)])

/-- One element of the result stream returned by
`client.messages.batches.results`: the request's custom id, the result type
string (`result.result.type`), and the message content block texts
(`result.result.message.content`, meaningful on success). -/
structure BatchResult where
  custom_id : String
  rtype : String
  content : List String
deriving DecidableEq

/-- First-match association lookup, embedding a Python dict whose keys were
inserted without repetition. -/
def lookupA : List (String × String) → String → Option String
| [], _ => none
| (k, v) :: rest, key => if k = key then some v else lookupA rest key

/-- The mutable state of one `process_batch_results` run: output files
written so far, the `processed_files` set (as an insertion-ordered
duplicate-free list), the log, and the poll/sleep event trace. -/
structure RunState where
  outfs : OutFS
  processed : List String
  log : List LogMsg
  trace : List Event

/-- Embeds the single pass over the result stream (lines 103-116).  For each
result: skip if already processed; on `"succeeded"` look up the filename
(`KeyError` if absent), take `content[0].text` (`IndexError` if the content
list is empty) and write the optimized file, then mark processed; on
`"errored"`/`"expired"` log and mark processed; any other result type is
ignored.  An uncaught exception carries the state mutated so far. -/
def processResults (m : List (String × String)) (base_dir : String)
    (writeOk : String → Bool) :
    List BatchResult → RunState → Except (String × RunState) RunState
| [], s => .ok s
| r :: rest, s =>
  if r.custom_id ∈ s.processed then processResults m base_dir writeOk rest s
  else if r.rtype = "succeeded" then
    match lookupA m r.custom_id with
    | none => .error ("KeyError: " ++ r.custom_id, s)
    | some filename =>
      match r.content.head? with
      | none => .error ("IndexError: list index out of range", s)
      | some text =>
        let wr := write_optimized_content writeOk s.outfs (pathJoin base_dir filename) text
        processResults m base_dir writeOk rest
          { s with outfs := wr.1
                   log := s.log ++ wr.2
                   processed := s.processed ++ [r.custom_id] }
  else if r.rtype = "errored" ∨ r.rtype = "expired" then
    processResults m base_dir writeOk rest
      { s with log := s.log ++ [.error ("Request " ++ r.custom_id ++ " failed.")]
               processed := s.processed ++ [r.custom_id] }
  else processResults m base_dir writeOk rest s

/-- How a `process_batch_results` run ends: a normal return, an exception
re-raised at line 124 (after the `except` block logged it), or — a model
artifact only — the fuel budget ran out while the `while` loop was still
running. -/
inductive RunOutcome
| normal (s : RunState)
| raised (e : String) (s : RunState)
| fuelOut (s : RunState)

/-- The state carried by a `RunOutcome`. -/
def RunOutcome.state : RunOutcome → RunState
| .normal s => s
| .raised _ s => s
| .fuelOut s => s

/-- Whether the run returned normally. -/
def RunOutcome.isNormal : RunOutcome → Bool
| .normal _ => true
| _ => false

/-- Embeds the `while len(processed_files) < len(files_to_process)` loop of
`process_batch_results` (lines 93-118), with the `try/except` of lines
88-124 folded in: an exception from a service call or from result
processing is logged (`"Error in batch processing: ..."`) and re-raised.
`retrieve t` is the status string returned by the `t`-th poll, `fetchRes`
the value of the single result fetch, `nFiles` the length of
`files_to_process`.  On `"in_progress"` the loop sleeps 5 seconds
(`retry_interval`) and re-checks; on `"ended"` it makes one pass over the
results and exits unconditionally (`break`); on any other status it loops
again immediately. -/
def pollLoop (retrieve : Nat → Except String String)
    (fetchRes : Except String (List BatchResult)) (batch_id : String)
    (m : List (String × String)) (base_dir : String) (writeOk : String → Bool)
    (nFiles : Nat) : Nat → Nat → RunState → RunOutcome
| 0, _, s => .fuelOut s
| fuel + 1, t, s =>
  if s.processed.length < nFiles then
    match retrieve t with
    | .error e =>
      .raised e { s with log := s.log ++ [.error ("Error in batch processing: " ++ e)] }
    | .ok status =>
      let s1 : RunState :=
        { s with trace := s.trace ++ [.poll]
                 log := s.log ++
                   [.info ("Batch " ++ batch_id ++ " processing status is " ++ status)] }
      if status = "in_progress" then
        pollLoop retrieve fetchRes batch_id m base_dir writeOk nFiles fuel (t + 1)
          { s1 with trace := s1.trace ++ [.sleep 5] }
      else if status = "ended" then
        match fetchRes with
        | .error e =>
          .raised e { s1 with log := s1.log ++ [.error ("Error in batch processing: " ++ e)] }
        | .ok results =>
          match processResults m base_dir writeOk results s1 with
          | .ok s2 => .normal s2
          | .error (e, s2) =>
            .raised e { s2 with log := s2.log ++ [.error ("Error in batch processing: " ++ e)] }
      else pollLoop retrieve fetchRes batch_id m base_dir writeOk nFiles fuel (t + 1) s1
  else .normal s

/-- The run state at entry of `process_batch_results`: no output yet beyond
the pre-existing files `fs0`, empty `processed_files`, empty log and trace. -/
def initialState (fs0 : OutFS) : RunState :=
  { outfs := fs0, processed := [], log := [], trace := [] }

/-- Embeds `BatchProcessor.process_batch_results` (lines 86-124). -/
def process_batch_results (retrieve : Nat → Except String String)
    (fetchRes : Except String (List BatchResult)) (batch_id : String)
    (m : List (String × String)) (base_dir : String) (writeOk : String → Bool)
    (files_to_process : List String) (fuel : Nat) (fs0 : OutFS) : RunOutcome :=
  pollLoop retrieve fetchRes batch_id m base_dir writeOk files_to_process.length
    fuel 0 (initialState fs0)

/-- What `process_files` did: whether `client.messages.batches.create` was
invoked, the inner run's outcome (`none` if the run never started), the
resulting output filesystem, and the log. -/
structure PFState where
  createCalled : Bool
  run : Option RunOutcome
  outfs : OutFS
  log : List LogMsg

/-- Embeds `BatchProcessor.process_files` (lines 126-138).  The result type
admits an uncaught exception (`Except.error`), as any Python coroutine may
raise, but the body's `try/except` catches every exception, logs it, and
returns normally — so every path below is `Except.ok`. -/
def process_files (readFS : String → ReadOutcome) (base_dir : String)
    (create : List Request → Except String String)
    (retrieve : Nat → Except String String)
    (fetchRes : Except String (List BatchResult)) (writeOk : String → Bool)
    (prior : List (String × String)) (files_to_process : List String)
    (fuel : Nat) (fs0 : OutFS) : Except String PFState :=
  let p := prepare_batch_requests readFS base_dir prior files_to_process
  if p.1.isEmpty then
    .ok { createCalled := false, run := none, outfs := fs0
          log := [.error "No valid files to process"] }
  else
    match create p.1 with
    | .error e =>
      .ok { createCalled := true, run := none, outfs := fs0
            log := [.error ("Error in batch processing: " ++ e)] }
    | .ok batch_id =>
      match process_batch_results retrieve fetchRes batch_id p.2 base_dir writeOk
          files_to_process fuel fs0 with
      | .raised e s =>
        .ok { createCalled := true, run := some (.raised e s), outfs := s.outfs
              log := s.log ++ [.error ("Error in batch processing: " ++ e)] }
      | out =>
        .ok { createCalled := true, run := some out, outfs := out.state.outfs
              log := out.state.log }

/-- Whether a `process_files` call returned (rather than raised). -/
def exceptIsOk : Except String PFState → Bool
| .ok _ => true
| .error _ => false

/-- The log of a completed `process_files` call. -/
def pfLogOf : Except String PFState → List LogMsg
| .ok s => s.log
| .error _ => []

/-! ## Decimal rendering: agreement with `Nat.digits` and injectivity -/

lemma natStrAux_eq_digits :
    ∀ fuel n, n ≤ fuel → natStrAux fuel n = ((Nat.digits 10 n).map digitChar).reverse := by
  intro fuel
  induction fuel with
  | zero =>
    intro n hn
    interval_cases n
    simp [natStrAux]
  | succ f ih =>
    intro n hn
    by_cases h0 : n = 0
    · subst h0; simp [natStrAux]
    · have hdiv : n / 10 ≤ f := by
        have h1 : n / 10 < n := Nat.div_lt_self (Nat.pos_of_ne_zero h0) (by norm_num)
        omega
      rw [show natStrAux (f + 1) n
            = if n = 0 then [] else natStrAux f (n / 10) ++ [digitChar (n % 10)] from rfl,
        if_neg h0, ih _ hdiv,
        Nat.digits_def' (by norm_num : (1 : ℕ) < 10) (Nat.pos_of_ne_zero h0)]
      simp

lemma digitChar_lt_inj : ∀ a < 10, ∀ b < 10, digitChar a = digitChar b → a = b := by decide

lemma map_digitChar_inj :
    ∀ l1 l2 : List Nat, (∀ x ∈ l1, x < 10) → (∀ x ∈ l2, x < 10) →
      l1.map digitChar = l2.map digitChar → l1 = l2 := by
  intro l1
  induction l1 with
  | nil => intro l2 _ _ h; cases l2 <;> simp_all
  | cons a t ih =>
    intro l2 h1 h2 h
    cases l2 with
    | nil => simp_all
    | cons b t2 =>
      simp only [List.map_cons, List.cons.injEq] at h
      have ha := digitChar_lt_inj a (h1 a (by simp)) b (h2 b (by simp)) h.1
      subst ha
      rw [ih t2 (fun x hx => h1 x (by simp [hx])) (fun x hx => h2 x (by simp [hx])) h.2]

lemma digits_map_ne_single_zero {n : Nat} (hn : n ≠ 0) :
    (Nat.digits 10 n).map digitChar ≠ ['0'] := by
  intro hmap
  have hd : Nat.digits 10 n = [0] := by
    apply map_digitChar_inj _ [0]
    · intro x hx; exact Nat.digits_lt_base (by norm_num) hx
    · intro x hx; simp at hx; omega
    · simpa using hmap
  have := Nat.ofDigits_digits 10 n
  rw [hd] at this
  simp [Nat.ofDigits] at this
  exact hn this.symm

lemma natStr_inj : ∀ {m n : Nat}, natStr m = natStr n → m = n := by
  intro m n h
  unfold natStr at h
  by_cases hm : m = 0 <;> by_cases hn : n = 0
  · omega
  · rw [if_pos hm, if_neg hn, natStrAux_eq_digits n n le_rfl] at h
    have hd := congrArg String.data h
    have h0 : ("0" : String).data = ['0'] := rfl
    rw [h0] at hd
    have hrev := congrArg List.reverse hd
    simp only [List.reverse_reverse] at hrev
    exact absurd hrev.symm (by simpa using digits_map_ne_single_zero hn)
  · rw [if_neg hm, if_pos hn, natStrAux_eq_digits m m le_rfl] at h
    have hd := congrArg String.data h
    have h0 : ("0" : String).data = ['0'] := rfl
    rw [h0] at hd
    have hrev := congrArg List.reverse hd
    simp only [List.reverse_reverse] at hrev
    exact absurd hrev (by simpa using digits_map_ne_single_zero hm)
  · rw [if_neg hm, if_neg hn, natStrAux_eq_digits m m le_rfl,
      natStrAux_eq_digits n n le_rfl] at h
    have hd := congrArg String.data h
    simp only at hd
    have hmap := List.reverse_injective hd
    have hdig : Nat.digits 10 m = Nat.digits 10 n :=
      map_digitChar_inj _ _ (fun x hx => Nat.digits_lt_base (by norm_num) hx)
        (fun x hx => Nat.digits_lt_base (by norm_num) hx) hmap
    have := congrArg (Nat.ofDigits 10) hdig
    rwa [Nat.ofDigits_digits, Nat.ofDigits_digits] at this

lemma reqId_inj : ∀ {m n : Nat}, "req_" ++ natStr m = "req_" ++ natStr n → m = n := by
  intro m n h
  apply natStr_inj
  apply String.ext
  have hd := congrArg String.data h
  rw [String.data_append, String.data_append] at hd
  exact List.append_cancel_left hd

/-! ## Shape of the prepared requests -/

/-- The 1-based positions (as assigned by `enumerate(files_to_process, 1)`)
of the files whose content reads back non-empty — exactly the indices that
receive a request and a custom id. -/
def keptIdxs (readFS : String → ReadOutcome) (base_dir : String) :
    List String → Nat → List Nat
| [], _ => []
| f :: rest, idx =>
  if read_file_content readFS (pathJoin base_dir f) ≠ "" then
    idx :: keptIdxs readFS base_dir rest (idx + 1)
  else keptIdxs readFS base_dir rest (idx + 1)

lemma prepare_ids_eq (readFS : String → ReadOutcome) (base_dir : String) :
    ∀ (files : List String) (idx : Nat),
      (prepareAux readFS base_dir files idx).1.map (fun r => r.custom_id)
        = (keptIdxs readFS base_dir files idx).map (fun i => "req_" ++ natStr i) := by
  intro files
  induction files with
  | nil => intro idx; simp [prepareAux, keptIdxs]
  | cons f rest ih =>
    intro idx
    by_cases h : read_file_content readFS (pathJoin base_dir f) = ""
    · simp [prepareAux, keptIdxs, h, ih]
    · simp [prepareAux, keptIdxs, h, ih, mkRequest]

lemma keptIdxs_ge (readFS : String → ReadOutcome) (base_dir : String) :
    ∀ (files : List String) (idx i : Nat),
      i ∈ keptIdxs readFS base_dir files idx → idx ≤ i := by
  intro files
  induction files with
  | nil => intro idx i hi; simp [keptIdxs] at hi
  | cons f rest ih =>
    intro idx i hi
    by_cases h : read_file_content readFS (pathJoin base_dir f) = ""
    · simp [keptIdxs, h] at hi
      exact le_of_lt (lt_of_lt_of_le (Nat.lt_succ_self idx) (ih (idx + 1) i hi))
    · simp [keptIdxs, h] at hi
      rcases hi with hi | hi
      · omega
      · exact le_of_lt (lt_of_lt_of_le (Nat.lt_succ_self idx) (ih (idx + 1) i hi))

lemma keptIdxs_sorted (readFS : String → ReadOutcome) (base_dir : String) :
    ∀ (files : List String) (idx : Nat),
      (keptIdxs readFS base_dir files idx).Pairwise (· < ·) := by
  intro files
  induction files with
  | nil => intro idx; simp [keptIdxs]
  | cons f rest ih =>
    intro idx
    by_cases h : read_file_content readFS (pathJoin base_dir f) = ""
    · simpa [keptIdxs, h] using ih (idx + 1)
    · simp only [keptIdxs, h, ne_eq, not_false_eq_true, if_pos]
      refine List.Pairwise.cons ?_ (ih (idx + 1))
      intro i hi
      exact lt_of_lt_of_le (Nat.lt_succ_self idx) (keptIdxs_ge readFS base_dir rest (idx + 1) i hi)

lemma prepare_ids_nodup (readFS : String → ReadOutcome) (base_dir : String)
    (files : List String) (idx : Nat) :
    ((prepareAux readFS base_dir files idx).1.map (fun r => r.custom_id)).Nodup := by
  rw [prepare_ids_eq]
  refine List.Nodup.map (fun a b hab => reqId_inj hab) ?_
  exact List.Pairwise.imp (fun h => Nat.ne_of_lt h) (keptIdxs_sorted readFS base_dir files idx)

lemma keptIdxs_all_kept (readFS : String → ReadOutcome) (base_dir : String) :
    ∀ (files : List String),
      (∀ f ∈ files, read_file_content readFS (pathJoin base_dir f) ≠ "") →
      ∀ idx, keptIdxs readFS base_dir files idx = List.range' idx files.length := by
  intro files
  induction files with
  | nil => intro _ idx; simp [keptIdxs]
  | cons f rest ih =>
    intro h idx
    have hf : read_file_content readFS (pathJoin base_dir f) ≠ "" := h f (by simp)
    simp only [keptIdxs, hf, ne_eq, not_false_eq_true, if_pos, List.length_cons]
    rw [ih (fun g hg => h g (by simp [hg])) (idx + 1), List.range'_succ]

lemma prepare_keys (readFS : String → ReadOutcome) (base_dir : String) :
    ∀ (files : List String) (idx : Nat),
      (prepareAux readFS base_dir files idx).2.map Prod.fst
        = (prepareAux readFS base_dir files idx).1.map (fun r => r.custom_id) := by
  intro files
  induction files with
  | nil => intro idx; simp [prepareAux]
  | cons f rest ih =>
    intro idx
    by_cases h : read_file_content readFS (pathJoin base_dir f) = ""
    · simp [prepareAux, h, ih]
    · simp [prepareAux, h, ih, mkRequest]

lemma lookupA_isSome_of_key :
    ∀ (l : List (String × String)) (k : String),
      k ∈ l.map Prod.fst → (lookupA l k).isSome = true := by
  intro l
  induction l with
  | nil => intro k hk; simp at hk
  | cons p rest ih =>
    intro k hk
    by_cases h : p.1 = k
    · simp [lookupA, h]
    · simp only [List.map_cons, List.mem_cons] at hk
      rcases hk with hk | hk
      · exact absurd hk.symm h
      · simpa [lookupA, h] using ih k hk

/-! ## Claim C2 -/

/-- The concrete read oracle for the C2 counterexample: `a.md` is missing,
`b.md` has non-empty content. -/
def readGap : String → ReadOutcome :=
  fun p => if p = "/b/b.md" then .ok "hello" else .notFound

/-- Claim C2, counterexample.  The claim says the custom ids of the returned
request list are always `req_1, req_2, …` with no gaps.  With input files
`["a.md", "b.md"]` where `a.md` is missing, the single returned request has
custom id `req_2` (the `enumerate` index counts skipped files too), not
`req_1`. -/
theorem C2_counterexample :
    ¬ ((prepare_batch_requests readGap "/b" [] ["a.md", "b.md"]).1.map
          (fun r => r.custom_id)
        = (List.range' 1
            (prepare_batch_requests readGap "/b" [] ["a.md", "b.md"]).1.length).map
            (fun i => "req_" ++ natStr i)) := by
  decide

/-- Claim C2 (amended).  For every input filename list, the custom ids of the
returned requests are unique; they are exactly `req_{i}` for the 1-based
positions `i` of the files whose content reads back non-empty (so they are
strictly increasing but may have gaps at skipped files); and when every
file's content reads back non-empty they are exactly the gapless sequence
`req_1, …, req_n`. -/
theorem C2_custom_ids (readFS : String → ReadOutcome) (base_dir : String)
    (prior : List (String × String)) (files : List String) :
    ((prepare_batch_requests readFS base_dir prior files).1.map
        (fun r => r.custom_id)).Nodup ∧
    (prepare_batch_requests readFS base_dir prior files).1.map (fun r => r.custom_id)
      = (keptIdxs readFS base_dir files 1).map (fun i => "req_" ++ natStr i) ∧
    ((∀ f ∈ files, read_file_content readFS (pathJoin base_dir f) ≠ "") →
      (prepare_batch_requests readFS base_dir prior files).1.map (fun r => r.custom_id)
        = (List.range' 1 files.length).map (fun i => "req_" ++ natStr i)) := by
  refine ⟨prepare_ids_nodup readFS base_dir files 1, prepare_ids_eq readFS base_dir files 1, ?_⟩
  intro h
  unfold prepare_batch_requests
  rw [prepare_ids_eq readFS base_dir files 1, keptIdxs_all_kept readFS base_dir files h 1]

/-- Witness for `C2_custom_ids` at a concrete input where every file is
readable: the ids are exactly `req_1, req_2`. -/
theorem C2_custom_ids_witness :
    (prepare_batch_requests (fun _ => ReadOutcome.ok "h") "/b" [] ["a.md", "b.md"]).1.map
        (fun r => r.custom_id)
      = (List.range' 1 2).map (fun i => "req_" ++ natStr i) :=
  (C2_custom_ids (fun _ => ReadOutcome.ok "h") "/b" [] ["a.md", "b.md"]).2.2 (by decide)

/-! ## Claim C3 -/

lemma prepare_count (readFS : String → ReadOutcome) (base_dir : String) :
    ∀ (files : List String) (idx : Nat),
      (prepareAux readFS base_dir files idx).1.length
        = (files.filter
            (fun f => read_file_content readFS (pathJoin base_dir f) != "")).length := by
  intro files
  induction files with
  | nil => intro idx; simp [prepareAux]
  | cons f rest ih =>
    intro idx
    simp only [prepareAux, List.filter_cons]
    by_cases h : read_file_content readFS (pathJoin base_dir f) = ""
    · simp [h, ih]
    · have hb : (read_file_content readFS (pathJoin base_dir f) != "") = true := by
        simp [bne_iff_ne, h]
      simp [h, hb, ih]

/-- Claim C3.  The number of requests returned by `prepare_batch_requests`
equals the number of files in the input list whose content reads back
non-empty; files that are missing (`FileNotFoundError`), unreadable (any
other exception), or empty contribute no request, and — the embedding being
a total function whose read step maps every exception to `""` — no
exception escapes. -/
theorem C3_request_count (readFS : String → ReadOutcome) (base_dir : String)
    (prior : List (String × String)) (files : List String) :
    (prepare_batch_requests readFS base_dir prior files).1.length
      = (files.filter
          (fun f => read_file_content readFS (pathJoin base_dir f) != "")).length :=
  prepare_count readFS base_dir files 1

/-! ## Claim C9 -/

/-- Claim C9.  `prepare_batch_requests` discards the previous
`custom_id_to_filename` mapping (line 57 resets it), and the fresh mapping's
keys are exactly the custom ids of the returned requests, in order; hence
every custom id of the current batch resolves to a filename. -/
theorem C9_mapping_resolves (readFS : String → ReadOutcome) (base_dir : String)
    (prior prior2 : List (String × String)) (files : List String) :
    (prepare_batch_requests readFS base_dir prior files).2
      = (prepare_batch_requests readFS base_dir prior2 files).2 ∧
    (prepare_batch_requests readFS base_dir prior files).2.map Prod.fst
      = (prepare_batch_requests readFS base_dir prior files).1.map (fun r => r.custom_id) ∧
    ∀ cid, cid ∈ (prepare_batch_requests readFS base_dir prior files).1.map
        (fun r => r.custom_id) →
      (lookupA (prepare_batch_requests readFS base_dir prior files).2 cid).isSome = true := by
  refine ⟨rfl, prepare_keys readFS base_dir files 1, ?_⟩
  intro cid hcid
  apply lookupA_isSome_of_key
  unfold prepare_batch_requests
  rw [prepare_keys readFS base_dir files 1]
  exact hcid

/-- Witness for `C9_mapping_resolves`: at a concrete input, `req_1`
resolves. -/
theorem C9_mapping_resolves_witness :
    (lookupA (prepare_batch_requests (fun _ => ReadOutcome.ok "h") "/b" [] ["a.md"]).2
      "req_1").isSome = true :=
  (C9_mapping_resolves (fun _ => ReadOutcome.ok "h") "/b" [] [] ["a.md"]).2.2
    "req_1" (by decide)

/-- An output filesystem with no files written. -/
def emptyFS : OutFS := fun _ => none

/-! ## Claim C5 -/

/-- Claim C5.  A result whose type is `"errored"` or `"expired"`, not yet
processed, is handled by: logging the failure, marking its custom id
processed, and continuing with the remaining results of the same batch —
the output filesystem is untouched (no output file is written for it) and
no exception is raised. -/
theorem C5_failed_result (m : List (String × String)) (base_dir : String)
    (writeOk : String → Bool) (r : BatchResult) (rest : List BatchResult) (s : RunState)
    (hfail : r.rtype = "errored" ∨ r.rtype = "expired")
    (hnew : r.custom_id ∉ s.processed) :
    processResults m base_dir writeOk (r :: rest) s
      = processResults m base_dir writeOk rest
          { s with processed := s.processed ++ [r.custom_id]
                   log := s.log ++ [.error ("Request " ++ r.custom_id ++ " failed.")] } := by
  have hns : r.rtype ≠ "succeeded" := by rcases hfail with h | h <;> simp [h]
  simp [processResults, hnew, hns, hfail]

/-- Witness for `C5_failed_result` at a concrete errored result. -/
theorem C5_failed_result_witness :
    processResults [] "/b" (fun _ => true)
        [{ custom_id := "req_1", rtype := "errored", content := [] }]
        (initialState emptyFS)
      = processResults [] "/b" (fun _ => true) []
          { initialState emptyFS with
              processed := (initialState emptyFS).processed ++ ["req_1"]
              log := (initialState emptyFS).log
                ++ [.error ("Request " ++ "req_1" ++ " failed.")] } :=
  C5_failed_result [] "/b" (fun _ => true)
    { custom_id := "req_1", rtype := "errored", content := [] } [] (initialState emptyFS)
    (Or.inl rfl) (by decide)

/-! ## Claim C10 -/

/-- Claim C10.  `write_optimized_content` never raises: when the write fails,
it returns with the output filesystem unchanged and the error logged; and a
`"succeeded"` result whose write fails is nonetheless marked processed, so
the pass continues (and a run can complete normally with the output file of
a succeeded result missing). -/
theorem C10_write_failure (m : List (String × String)) (base_dir fname : String)
    (writeOk : String → Bool) (r : BatchResult) (rest : List BatchResult)
    (s : RunState) (text : String)
    (hw : writeOk (optimizedPath (pathJoin base_dir fname)) = false)
    (hsucc : r.rtype = "succeeded")
    (hlook : lookupA m r.custom_id = some fname)
    (hcontent : r.content.head? = some text)
    (hnew : r.custom_id ∉ s.processed) :
    write_optimized_content writeOk s.outfs (pathJoin base_dir fname) text
      = (s.outfs, [LogMsg.error ("Error writing to "
          ++ optimizedPath (pathJoin base_dir fname) ++ ": " ++ "write failed")]) ∧
    processResults m base_dir writeOk (r :: rest) s
      = processResults m base_dir writeOk rest
          { s with processed := s.processed ++ [r.custom_id]
                   log := s.log ++ [LogMsg.error ("Error writing to "
                      ++ optimizedPath (pathJoin base_dir fname) ++ ": " ++ "write failed")] } := by
  have hwrite : write_optimized_content writeOk s.outfs (pathJoin base_dir fname) text
      = (s.outfs, [LogMsg.error ("Error writing to "
          ++ optimizedPath (pathJoin base_dir fname) ++ ": " ++ "write failed")]) := by
    simp [write_optimized_content, openWrite, hw]
  refine ⟨hwrite, ?_⟩
  simp [processResults, hnew, hsucc, hlook, hcontent, hwrite]

/-- Witness for `C10_write_failure`: a concrete succeeded result whose
write fails. -/
theorem C10_write_failure_witness :
    write_optimized_content (fun _ => false) (initialState emptyFS).outfs
        (pathJoin "/b" "a.md") "HI"
      = ((initialState emptyFS).outfs, [LogMsg.error ("Error writing to "
          ++ optimizedPath (pathJoin "/b" "a.md") ++ ": " ++ "write failed")]) ∧
    processResults [("req_1", "a.md")] "/b" (fun _ => false)
        [{ custom_id := "req_1", rtype := "succeeded", content := ["HI"] }]
        (initialState emptyFS)
      = processResults [("req_1", "a.md")] "/b" (fun _ => false) []
          { initialState emptyFS with
              processed := (initialState emptyFS).processed ++ ["req_1"]
              log := (initialState emptyFS).log ++ [LogMsg.error ("Error writing to "
                  ++ optimizedPath (pathJoin "/b" "a.md") ++ ": " ++ "write failed")] } :=
  C10_write_failure [("req_1", "a.md")] "/b" "a.md" (fun _ => false)
    { custom_id := "req_1", rtype := "succeeded", content := ["HI"] } []
    (initialState emptyFS) "HI" rfl rfl (by decide) rfl (by decide)

/-! ## Claim C7 -/

/-- Claim C7.  When `prepare_batch_requests` yields zero requests,
`process_files` logs `"No valid files to process"` and returns without
invoking the service's batch-creation call (`createCalled = false`) and
without starting the polling run. -/
theorem C7_no_requests (readFS : String → ReadOutcome) (base_dir : String)
    (create : List Request → Except String String)
    (retrieve : Nat → Except String String)
    (fetchRes : Except String (List BatchResult)) (writeOk : String → Bool)
    (prior : List (String × String)) (files : List String) (fuel : Nat) (fs0 : OutFS)
    (h : (prepare_batch_requests readFS base_dir prior files).1 = []) :
    process_files readFS base_dir create retrieve fetchRes writeOk prior files fuel fs0
      = .ok { createCalled := false, run := none, outfs := fs0
              log := [.error "No valid files to process"] } := by
  simp [process_files, h]

/-- Witness for `C7_no_requests`: every input file is missing, so no
request is built and the service is never called. -/
theorem C7_no_requests_witness :
    process_files (fun _ => ReadOutcome.notFound) "/b" (fun _ => .ok "b1")
        (fun _ => .ok "ended") (.ok []) (fun _ => true) [] ["a.md"] 3 emptyFS
      = .ok { createCalled := false, run := none, outfs := emptyFS
              log := [.error "No valid files to process"] } :=
  C7_no_requests (fun _ => ReadOutcome.notFound) "/b" (fun _ => .ok "b1")
    (fun _ => .ok "ended") (.ok []) (fun _ => true) [] ["a.md"] 3 emptyFS (by decide)

/-! ## The waiting phase of the polling loop -/

/-- The trace produced by `k` consecutive `"in_progress"` iterations: each
polls once, then sleeps 5 seconds. -/
def waitTrace : Nat → List Event
| 0 => []
| k + 1 => [.poll, .sleep 5] ++ waitTrace k

/-- The log produced by `k` consecutive `"in_progress"` iterations. -/
def waitLog (batch_id : String) (k : Nat) : List LogMsg :=
  List.replicate k
    (.info ("Batch " ++ batch_id ++ " processing status is " ++ "in_progress"))

lemma pollLoop_wait (retrieve : Nat → Except String String)
    (fetchRes : Except String (List BatchResult)) (batch_id : String)
    (m : List (String × String)) (base_dir : String) (writeOk : String → Bool)
    (nFiles : Nat) :
    ∀ (k fuel t : Nat) (s : RunState),
      (∀ j, j < k → retrieve (t + j) = .ok "in_progress") →
      s.processed.length < nFiles →
      pollLoop retrieve fetchRes batch_id m base_dir writeOk nFiles (k + fuel) t s
        = pollLoop retrieve fetchRes batch_id m base_dir writeOk nFiles fuel (t + k)
            { s with trace := s.trace ++ waitTrace k
                     log := s.log ++ waitLog batch_id k } := by
  intro k
  induction k with
  | zero =>
    intro fuel t s _ _
    simp [waitTrace, waitLog]
  | succ k ih =>
    intro fuel t s hin hlen
    have h0 : retrieve t = .ok "in_progress" := by simpa using hin 0 (Nat.succ_pos k)
    have hstep :
        pollLoop retrieve fetchRes batch_id m base_dir writeOk nFiles (k + 1 + fuel) t s
          = pollLoop retrieve fetchRes batch_id m base_dir writeOk nFiles (k + fuel) (t + 1)
              { s with trace := s.trace ++ [.poll, .sleep 5]
                       log := s.log ++ [.info ("Batch " ++ batch_id
                          ++ " processing status is " ++ "in_progress")] } := by
      rw [show k + 1 + fuel = (k + fuel) + 1 by omega]
      simp [pollLoop, hlen, h0]
    rw [hstep, ih fuel (t + 1)
      { s with trace := s.trace ++ [Event.poll, Event.sleep 5]
               log := s.log ++ [LogMsg.info ("Batch " ++ batch_id
                  ++ " processing status is " ++ "in_progress")] }
      (fun j hj => by rw [show t + 1 + j = t + (j + 1) by omega]; exact hin (j + 1) (by omega))
      hlen]
    have ht : t + 1 + k = t + (k + 1) := by omega
    rw [ht]
    have htr : (s.trace ++ [Event.poll, Event.sleep 5]) ++ waitTrace k
        = s.trace ++ waitTrace (k + 1) := by
      simp [waitTrace]
    have hlg : (s.log ++ [LogMsg.info ("Batch " ++ batch_id
          ++ " processing status is " ++ "in_progress")]) ++ waitLog batch_id k
        = s.log ++ waitLog batch_id (k + 1) := by
      simp [waitLog, List.replicate_succ]
    rw [htr, hlg]

/-- The run state after `k` `"in_progress"` polls followed by the poll that
returned `"ended"`, just before the result pass. -/
def wait_ended_state (batch_id : String) (k : Nat) (fs0 : OutFS) : RunState :=
  { outfs := fs0, processed := []
    log := waitLog batch_id k
      ++ [.info ("Batch " ++ batch_id ++ " processing status is " ++ "ended")]
    trace := waitTrace k ++ [Event.poll] }

lemma run_after_wait (retrieve : Nat → Except String String)
    (fetchRes : Except String (List BatchResult)) (batch_id : String)
    (m : List (String × String)) (base_dir : String) (writeOk : String → Bool)
    (files : List String) (k fuel : Nat) (fs0 : OutFS)
    (hpoll : ∀ t, t < k → retrieve t = .ok "in_progress")
    (hend : retrieve k = .ok "ended")
    (hfuel : k + 1 ≤ fuel)
    (hfiles : files ≠ []) :
    process_batch_results retrieve fetchRes batch_id m base_dir writeOk files fuel fs0
      = match fetchRes with
        | .error e =>
          .raised e { wait_ended_state batch_id k fs0 with
            log := (wait_ended_state batch_id k fs0).log
              ++ [.error ("Error in batch processing: " ++ e)] }
        | .ok results =>
          match processResults m base_dir writeOk results
              (wait_ended_state batch_id k fs0) with
          | .ok s2 => .normal s2
          | .error (e, s2) =>
            .raised e { s2 with log := s2.log ++ [.error ("Error in batch processing: " ++ e)] } := by
  unfold process_batch_results
  rw [show fuel = k + (fuel - k) by omega]
  rw [pollLoop_wait retrieve fetchRes batch_id m base_dir writeOk files.length k
    (fuel - k) 0 (initialState fs0) (fun j hj => by simpa using hpoll j hj)
    (by simpa [initialState] using List.length_pos.mpr hfiles)]
  obtain ⟨f2, hf2⟩ : ∃ f2, fuel - k = f2 + 1 := ⟨fuel - k - 1, by omega⟩
  rw [hf2]
  have hlen2 : (({ initialState fs0 with
      trace := (initialState fs0).trace ++ waitTrace k
      log := (initialState fs0).log ++ waitLog batch_id k } : RunState)).processed.length
      < files.length := by
    simpa [initialState] using List.length_pos.mpr hfiles
  simp only [pollLoop, hlen2, if_pos, Nat.zero_add, hend]
  rfl

/-! ## The single result pass -/

/-- The trace recorded in either outcome of the result pass. -/
def prTrace : Except (String × RunState) RunState → List Event
| .ok s => s.trace
| .error (_, s) => s.trace

lemma processResults_trace (m : List (String × String)) (base_dir : String)
    (writeOk : String → Bool) :
    ∀ (results : List BatchResult) (s : RunState),
      prTrace (processResults m base_dir writeOk results s) = s.trace := by
  intro results
  induction results with
  | nil => intro s; rfl
  | cons r rest ih =>
    intro s
    simp only [processResults]
    split
    · exact ih s
    · split
      · split
        · rfl
        · split
          · rfl
          · exact ih _
      · split
        · exact ih _
        · exact ih s

lemma processResults_succ_step (m : List (String × String)) (base_dir : String)
    (writeOk : String → Bool) (r : BatchResult) (rest : List BatchResult)
    (s : RunState) (fname text : String)
    (hnew : r.custom_id ∉ s.processed) (hs : r.rtype = "succeeded")
    (hfname : lookupA m r.custom_id = some fname)
    (hhead : r.content.head? = some text) :
    processResults m base_dir writeOk (r :: rest) s
      = processResults m base_dir writeOk rest
          { s with
              outfs := (write_optimized_content writeOk s.outfs
                (pathJoin base_dir fname) text).1,
              log := s.log ++ (write_optimized_content writeOk s.outfs
                (pathJoin base_dir fname) text).2,
              processed := s.processed ++ [r.custom_id] } := by
  simp [processResults, hnew, hs, hfname, hhead]

lemma processResults_fail_step (m : List (String × String)) (base_dir : String)
    (writeOk : String → Bool) (r : BatchResult) (rest : List BatchResult)
    (s : RunState)
    (hnew : r.custom_id ∉ s.processed)
    (hf : r.rtype = "errored" ∨ r.rtype = "expired") :
    processResults m base_dir writeOk (r :: rest) s
      = processResults m base_dir writeOk rest
          { s with
              log := s.log ++ [.error ("Request " ++ r.custom_id ++ " failed.")],
              processed := s.processed ++ [r.custom_id] } := by
  have hns : r.rtype ≠ "succeeded" := by rcases hf with h | h <;> simp [h]
  simp [processResults, hnew, hns, hf]

lemma processResults_total (m : List (String × String)) (base_dir : String)
    (writeOk : String → Bool) :
    ∀ (results : List BatchResult) (s : RunState),
      (∀ r ∈ results, r.rtype = "succeeded" ∨ r.rtype = "errored" ∨ r.rtype = "expired") →
      (∀ r ∈ results, r.rtype = "succeeded" →
        (lookupA m r.custom_id).isSome = true ∧ r.content ≠ []) →
      (∀ r ∈ results, r.custom_id ∉ s.processed) →
      (results.map (fun r => r.custom_id)).Nodup →
      ∃ s2, processResults m base_dir writeOk results s = .ok s2 ∧
        s2.processed = s.processed ++ results.map (fun r => r.custom_id) ∧
        s2.trace = s.trace := by
  intro results
  induction results with
  | nil => intro s _ _ _ _; exact ⟨s, rfl, by simp, rfl⟩
  | cons r rest ih =>
    intro s h1 h2 h3 h4
    have hnew : r.custom_id ∉ s.processed := h3 r (by simp)
    have hhd : r.custom_id ∉ rest.map (fun x => x.custom_id) := by
      have h := h4
      rw [List.map_cons, List.nodup_cons] at h
      exact h.1
    have h3' : ∀ (p : List String), p = s.processed ++ [r.custom_id] →
        ∀ x ∈ rest, x.custom_id ∉ p := by
      intro p hp x hx
      subst hp
      simp only [List.mem_append, List.mem_singleton]
      push_neg
      refine ⟨h3 x (by simp [hx]), ?_⟩
      intro hxr
      exact hhd (hxr ▸ List.mem_map_of_mem (fun y => y.custom_id) hx)
    have h4' : (rest.map (fun x => x.custom_id)).Nodup := by
      have h := h4
      rw [List.map_cons, List.nodup_cons] at h
      exact h.2
    rcases h1 r (by simp) with hs | hf
    · obtain ⟨hlook, hcont⟩ := h2 r (by simp) hs
      obtain ⟨fname, hfname⟩ := Option.isSome_iff_exists.mp hlook
      have hhead : ∃ text, r.content.head? = some text := by
        cases hc : r.content with
        | nil => exact absurd hc hcont
        | cons a t => exact ⟨a, rfl⟩
      obtain ⟨text, htext⟩ := hhead
      rw [processResults_succ_step m base_dir writeOk r rest s fname text hnew hs hfname htext]
      obtain ⟨s2, heq, hproc, htr⟩ := ih
        { s with
            outfs := (write_optimized_content writeOk s.outfs
              (pathJoin base_dir fname) text).1,
            log := s.log ++ (write_optimized_content writeOk s.outfs
              (pathJoin base_dir fname) text).2,
            processed := s.processed ++ [r.custom_id] }
        (fun x hx => h1 x (by simp [hx]))
        (fun x hx hxs => h2 x (by simp [hx]) hxs)
        (h3' _ rfl) h4'
      refine ⟨s2, heq, ?_, ?_⟩
      · rw [hproc]
        simp
      · rw [htr]
    · rw [processResults_fail_step m base_dir writeOk r rest s hnew hf]
      obtain ⟨s2, heq, hproc, htr⟩ := ih
        { s with
            log := s.log ++ [.error ("Request " ++ r.custom_id ++ " failed.")],
            processed := s.processed ++ [r.custom_id] }
        (fun x hx => h1 x (by simp [hx]))
        (fun x hx hxs => h2 x (by simp [hx]) hxs)
        (h3' _ rfl) h4'
      refine ⟨s2, heq, ?_, ?_⟩
      · rw [hproc]
        simp
      · rw [htr]

/-- The output path a result's custom id resolves to: the `-OPTIMIZED`
sibling of `base_dir / custom_id_to_filename[cid]`. -/
def targetPath (m : List (String × String)) (base_dir cid : String) : String :=
  optimizedPath (pathJoin base_dir ((lookupA m cid).getD ""))

lemma write_all_ok (fs : OutFS) (file_path text : String) :
    write_optimized_content (fun _ => true) fs file_path text
      = (fsUpdate fs (optimizedPath file_path) text,
          [.info ("Successfully wrote optimized content to " ++ optimizedPath file_path)]) := by
  simp [write_optimized_content, openWrite]

lemma processResults_writes (m : List (String × String)) (base_dir : String) :
    ∀ (results : List BatchResult) (s : RunState),
      (∀ r ∈ results, r.rtype = "succeeded") →
      (∀ r ∈ results, (lookupA m r.custom_id).isSome = true) →
      (∀ r ∈ results, r.content ≠ []) →
      (∀ r ∈ results, r.custom_id ∉ s.processed) →
      (results.map (fun r => r.custom_id)).Nodup →
      (results.map (fun r => targetPath m base_dir r.custom_id)).Nodup →
      ∃ s2, processResults m base_dir (fun _ => true) results s = .ok s2 ∧
        s2.processed = s.processed ++ results.map (fun r => r.custom_id) ∧
        s2.trace = s.trace ∧
        (∀ r ∈ results, s2.outfs (targetPath m base_dir r.custom_id) = r.content.head?) ∧
        (∀ q, q ∉ results.map (fun r => targetPath m base_dir r.custom_id) →
          s2.outfs q = s.outfs q) := by
  intro results
  induction results with
  | nil =>
    intro s _ _ _ _ _ _
    exact ⟨s, rfl, by simp, rfl, by simp, fun q _ => rfl⟩
  | cons r rest ih =>
    intro s h1 h2 h3 h4 h5 h6
    have hnew : r.custom_id ∉ s.processed := h4 r (by simp)
    have hs : r.rtype = "succeeded" := h1 r (by simp)
    obtain ⟨fname, hfname⟩ := Option.isSome_iff_exists.mp (h2 r (by simp))
    obtain ⟨text, htext⟩ : ∃ text, r.content.head? = some text := by
      cases hc : r.content with
      | nil => exact absurd hc (h3 r (by simp))
      | cons a t => exact ⟨a, rfl⟩
    have htp : targetPath m base_dir r.custom_id = optimizedPath (pathJoin base_dir fname) := by
      simp [targetPath, hfname]
    have hidhd : r.custom_id ∉ rest.map (fun x => x.custom_id) := by
      have h := h5
      rw [List.map_cons, List.nodup_cons] at h
      exact h.1
    have hid2 : (rest.map (fun x => x.custom_id)).Nodup := by
      have h := h5
      rw [List.map_cons, List.nodup_cons] at h
      exact h.2
    have htphd : targetPath m base_dir r.custom_id
        ∉ rest.map (fun x => targetPath m base_dir x.custom_id) := by
      have h := h6
      rw [List.map_cons, List.nodup_cons] at h
      exact h.1
    have htp2 : (rest.map (fun x => targetPath m base_dir x.custom_id)).Nodup := by
      have h := h6
      rw [List.map_cons, List.nodup_cons] at h
      exact h.2
    rw [processResults_succ_step m base_dir (fun _ => true) r rest s fname text
      hnew hs hfname htext]
    simp only [write_all_ok]
    obtain ⟨s2, heq, hproc, htr, hw, hpres⟩ := ih
      { s with
          outfs := fsUpdate s.outfs (optimizedPath (pathJoin base_dir fname)) text,
          log := s.log ++ [.info ("Successfully wrote optimized content to "
            ++ optimizedPath (pathJoin base_dir fname))],
          processed := s.processed ++ [r.custom_id] }
      (fun x hx => h1 x (by simp [hx]))
      (fun x hx => h2 x (by simp [hx]))
      (fun x hx => h3 x (by simp [hx]))
      (fun x hx => by
        simp only [List.mem_append, List.mem_singleton]
        push_neg
        refine ⟨h4 x (by simp [hx]), ?_⟩
        intro hxr
        exact hidhd (hxr ▸ List.mem_map_of_mem (fun y => y.custom_id) hx))
      hid2 htp2
    refine ⟨s2, heq, ?_, ?_, ?_, ?_⟩
    · rw [hproc]
      simp
    · rw [htr]
    · intro x hx
      rcases List.mem_cons.mp hx with hxr | hx2
      · subst hxr
        rw [hpres (targetPath m base_dir x.custom_id) htphd, htp]
        show fsUpdate s.outfs (optimizedPath (pathJoin base_dir fname)) text
          (optimizedPath (pathJoin base_dir fname)) = x.content.head?
        rw [htext]
        simp [fsUpdate]
      · exact hw x hx2
    · intro q hq
      simp only [List.map_cons, List.mem_cons] at hq
      push_neg at hq
      rw [hpres q hq.2]
      have hq1 : q ≠ optimizedPath (pathJoin base_dir fname) := by
        rw [← htp]
        exact hq.1
      show fsUpdate s.outfs (optimizedPath (pathJoin base_dir fname)) text q = s.outfs q
      simp [fsUpdate, hq1]

/-! ## Trace measurements for the polling claims -/

/-- Whether an event is a status poll. -/
def Event.isPoll : Event → Bool
| .poll => true
| .sleep _ => false

/-- Number of status polls in a trace. -/
def pollCount : List Event → Nat
| [] => 0
| .poll :: rest => pollCount rest + 1
| .sleep _ :: rest => pollCount rest

/-- Helper of `sleepGaps`: accumulates the seconds slept since the previous
poll. -/
def sleepGapsAux : List Event → Nat → List Nat
| [], _ => []
| .poll :: rest, acc => acc :: sleepGapsAux rest 0
| .sleep n :: rest, acc => sleepGapsAux rest (acc + n)

/-- For each pair of successive polls in a trace, the total seconds slept
between them. -/
def sleepGaps : List Event → List Nat
| [] => []
| .poll :: rest => sleepGapsAux rest 0
| .sleep _ :: rest => sleepGaps rest

lemma pollCount_wait : ∀ k, pollCount (waitTrace k ++ [Event.poll]) = k + 1 := by
  intro k
  induction k with
  | zero => rfl
  | succ k ih =>
    show pollCount (Event.poll :: Event.sleep 5 :: (waitTrace k ++ [Event.poll])) = k + 1 + 1
    rw [show pollCount (Event.poll :: Event.sleep 5 :: (waitTrace k ++ [Event.poll]))
        = pollCount (waitTrace k ++ [Event.poll]) + 1 from rfl, ih]

lemma sleepGapsAux_wait :
    ∀ k acc, sleepGapsAux (waitTrace k ++ [Event.poll]) acc = acc :: List.replicate k 5 := by
  intro k
  induction k with
  | zero => intro acc; rfl
  | succ k ih =>
    intro acc
    show sleepGapsAux (Event.poll :: Event.sleep 5 :: (waitTrace k ++ [Event.poll])) acc
      = acc :: List.replicate (k + 1) 5
    rw [show sleepGapsAux (Event.poll :: Event.sleep 5 :: (waitTrace k ++ [Event.poll])) acc
        = acc :: sleepGapsAux (Event.sleep 5 :: (waitTrace k ++ [Event.poll])) 0 from rfl]
    rw [show sleepGapsAux (Event.sleep 5 :: (waitTrace k ++ [Event.poll])) 0
        = sleepGapsAux (waitTrace k ++ [Event.poll]) 5 from rfl]
    rw [ih 5, List.replicate_succ]

lemma sleepGaps_wait : ∀ k, sleepGaps (waitTrace k ++ [Event.poll]) = List.replicate k 5 := by
  intro k
  cases k with
  | zero => rfl
  | succ k =>
    show sleepGaps (Event.poll :: Event.sleep 5 :: (waitTrace k ++ [Event.poll]))
      = List.replicate (k + 1) 5
    rw [show sleepGaps (Event.poll :: Event.sleep 5 :: (waitTrace k ++ [Event.poll]))
        = sleepGapsAux (Event.sleep 5 :: (waitTrace k ++ [Event.poll])) 0 from rfl]
    rw [show sleepGapsAux (Event.sleep 5 :: (waitTrace k ++ [Event.poll])) 0
        = sleepGapsAux (waitTrace k ++ [Event.poll]) 5 from rfl]
    rw [sleepGapsAux_wait k 5, List.replicate_succ]

lemma run_after_wait_ok (retrieve : Nat → Except String String)
    (fetchRes : Except String (List BatchResult)) (batch_id : String)
    (m : List (String × String)) (base_dir : String) (writeOk : String → Bool)
    (files : List String) (k fuel : Nat) (fs0 : OutFS) (results : List BatchResult)
    (hpoll : ∀ t, t < k → retrieve t = .ok "in_progress")
    (hend : retrieve k = .ok "ended")
    (hfuel : k + 1 ≤ fuel)
    (hfiles : files ≠ [])
    (hfetch : fetchRes = .ok results) :
    process_batch_results retrieve fetchRes batch_id m base_dir writeOk files fuel fs0
      = match processResults m base_dir writeOk results (wait_ended_state batch_id k fs0) with
        | .ok s2 => .normal s2
        | .error (e, s2) =>
          .raised e { s2 with log := s2.log ++ [.error ("Error in batch processing: " ++ e)] } := by
  subst hfetch
  exact run_after_wait retrieve (.ok results) batch_id m base_dir writeOk files k fuel fs0
    hpoll hend hfuel hfiles

lemma run_after_wait_err (retrieve : Nat → Except String String)
    (fetchRes : Except String (List BatchResult)) (batch_id : String)
    (m : List (String × String)) (base_dir : String) (writeOk : String → Bool)
    (files : List String) (k fuel : Nat) (fs0 : OutFS) (e : String)
    (hpoll : ∀ t, t < k → retrieve t = .ok "in_progress")
    (hend : retrieve k = .ok "ended")
    (hfuel : k + 1 ≤ fuel)
    (hfiles : files ≠ [])
    (hfetch : fetchRes = .error e) :
    process_batch_results retrieve fetchRes batch_id m base_dir writeOk files fuel fs0
      = .raised e { wait_ended_state batch_id k fs0 with
          log := (wait_ended_state batch_id k fs0).log
            ++ [.error ("Error in batch processing: " ++ e)] } := by
  subst hfetch
  exact run_after_wait retrieve (.error e) batch_id m base_dir writeOk files k fuel fs0
    hpoll hend hfuel hfiles

lemma run_trace_after_wait (retrieve : Nat → Except String String)
    (fetchRes : Except String (List BatchResult)) (batch_id : String)
    (m : List (String × String)) (base_dir : String) (writeOk : String → Bool)
    (files : List String) (k fuel : Nat) (fs0 : OutFS)
    (hpoll : ∀ t, t < k → retrieve t = .ok "in_progress")
    (hend : retrieve k = .ok "ended")
    (hfuel : k + 1 ≤ fuel)
    (hfiles : files ≠ []) :
    (process_batch_results retrieve fetchRes batch_id m base_dir writeOk
        files fuel fs0).state.trace = waitTrace k ++ [Event.poll] := by
  rcases hf : fetchRes with e | results
  · rw [run_after_wait_err retrieve (Except.error e) batch_id m base_dir writeOk files k fuel fs0 e
      hpoll hend hfuel hfiles rfl]
    rfl
  · rw [run_after_wait_ok retrieve (Except.ok results) batch_id m base_dir writeOk files k fuel
      fs0 results hpoll hend hfuel hfiles rfl]
    have htr := processResults_trace m base_dir writeOk results (wait_ended_state batch_id k fs0)
    cases hres : processResults m base_dir writeOk results (wait_ended_state batch_id k fs0) with
    | ok s2 =>
      rw [hres] at htr
      exact htr
    | error es =>
      rcases es with ⟨e2, s2⟩
      rw [hres] at htr
      exact htr

/-! ## Claim C8 -/

/-- Claim C8.  Polling timing.  First part: if the status is `"in_progress"`
for `k` consecutive polls and `"ended"` on the next, the client polls
exactly `k + 1` times before processing results, the trace is exactly `k`
repetitions of poll-then-sleep-5 followed by the final poll, and the slept
time between any two successive polls is the constant 5 seconds.  Second
part: one `"in_progress"` iteration does exactly a poll, a status log line,
and a 5-second sleep — the processed set and the output filesystem are
untouched (no other work). -/
theorem C8_poll_timing (retrieve : Nat → Except String String)
    (fetchRes : Except String (List BatchResult)) (batch_id : String)
    (m : List (String × String)) (base_dir : String) (writeOk : String → Bool)
    (files : List String) (k fuel : Nat) (fs0 : OutFS)
    (hpoll : ∀ t, t < k → retrieve t = .ok "in_progress")
    (hend : retrieve k = .ok "ended")
    (hfiles : files ≠ [])
    (hfuel : k + 1 ≤ fuel) :
    ((process_batch_results retrieve fetchRes batch_id m base_dir writeOk
        files fuel fs0).state.trace = waitTrace k ++ [Event.poll] ∧
      pollCount ((process_batch_results retrieve fetchRes batch_id m base_dir writeOk
        files fuel fs0).state.trace) = k + 1 ∧
      sleepGaps ((process_batch_results retrieve fetchRes batch_id m base_dir writeOk
        files fuel fs0).state.trace) = List.replicate k 5) ∧
    ∀ (t f2 : Nat) (s : RunState), retrieve t = .ok "in_progress" →
      s.processed.length < files.length →
      pollLoop retrieve fetchRes batch_id m base_dir writeOk files.length (f2 + 1) t s
        = pollLoop retrieve fetchRes batch_id m base_dir writeOk files.length f2 (t + 1)
            { s with trace := s.trace ++ [Event.poll, Event.sleep 5],
                     log := s.log ++ [LogMsg.info ("Batch " ++ batch_id
                        ++ " processing status is " ++ "in_progress")] } := by
  have htr := run_trace_after_wait retrieve fetchRes batch_id m base_dir writeOk files k fuel
    fs0 hpoll hend hfuel hfiles
  refine ⟨⟨htr, ?_, ?_⟩, ?_⟩
  · rw [htr, pollCount_wait]
  · rw [htr, sleepGaps_wait]
  · intro t f2 s hin hlen
    simp [pollLoop, hlen, hin]

/-- Witness for `C8_poll_timing`: status `"in_progress"` for 2 polls, then
`"ended"`; the client polls 3 times with gaps of exactly 5 seconds. -/
theorem C8_poll_timing_witness :
    (process_batch_results (fun t => if t < 2 then .ok "in_progress" else .ok "ended")
        (.ok []) "b1" [] "/b" (fun _ => true) ["a.md"] 3 emptyFS).state.trace
      = waitTrace 2 ++ [Event.poll] ∧
    pollCount ((process_batch_results (fun t => if t < 2 then .ok "in_progress" else .ok "ended")
        (.ok []) "b1" [] "/b" (fun _ => true) ["a.md"] 3 emptyFS).state.trace) = 2 + 1 ∧
    sleepGaps ((process_batch_results (fun t => if t < 2 then .ok "in_progress" else .ok "ended")
        (.ok []) "b1" [] "/b" (fun _ => true) ["a.md"] 3 emptyFS).state.trace)
      = List.replicate 2 5 :=
  (C8_poll_timing (fun t => if t < 2 then .ok "in_progress" else .ok "ended")
    (.ok []) "b1" [] "/b" (fun _ => true) ["a.md"] 2 3 emptyFS
    (by intro t ht; interval_cases t <;> rfl) rfl (List.cons_ne_nil _ _) (by omega)).1

/-! ## Claim C4 -/

/-- Claim C4.  For a batch whose every result is `"succeeded"` (with the
results carrying exactly the submitted custom ids, non-empty content
blocks, and pairwise-distinct output paths, and every write permitted),
the run terminates normally after the poll phase, every custom id is
processed, and each result's text is at `{stem}-OPTIMIZED{suffix}` next to
the original file — containing exactly the returned text, whatever `fs0`
previously held at that path (silent overwrite). -/
theorem C4_success_outputs (readFS : String → ReadOutcome) (base_dir batch_id : String)
    (prior : List (String × String)) (files : List String) (results : List BatchResult)
    (retrieve : Nat → Except String String) (k fuel : Nat) (fs0 : OutFS)
    (hpoll : ∀ t, t < k → retrieve t = .ok "in_progress")
    (hend : retrieve k = .ok "ended")
    (hfuel : k + 1 ≤ fuel)
    (hfiles : files ≠ [])
    (hmatch : results.map (fun r => r.custom_id)
      = (prepare_batch_requests readFS base_dir prior files).1.map (fun r => r.custom_id))
    (hsucc : ∀ r ∈ results, r.rtype = "succeeded")
    (hcont : ∀ r ∈ results, r.content ≠ [])
    (hpaths : (results.map (fun r => targetPath
        (prepare_batch_requests readFS base_dir prior files).2 base_dir r.custom_id)).Nodup) :
    (process_batch_results retrieve (.ok results) batch_id
        (prepare_batch_requests readFS base_dir prior files).2 base_dir (fun _ => true)
        files fuel fs0).isNormal = true ∧
    (process_batch_results retrieve (.ok results) batch_id
        (prepare_batch_requests readFS base_dir prior files).2 base_dir (fun _ => true)
        files fuel fs0).state.processed = results.map (fun r => r.custom_id) ∧
    ∀ r ∈ results,
      (process_batch_results retrieve (.ok results) batch_id
          (prepare_batch_requests readFS base_dir prior files).2 base_dir (fun _ => true)
          files fuel fs0).state.outfs
          (targetPath (prepare_batch_requests readFS base_dir prior files).2 base_dir
            r.custom_id)
        = r.content.head? := by
  have hids : (results.map (fun r => r.custom_id)).Nodup := by
    rw [hmatch]
    exact prepare_ids_nodup readFS base_dir files 1
  have hlook : ∀ r ∈ results,
      (lookupA (prepare_batch_requests readFS base_dir prior files).2 r.custom_id).isSome
        = true := by
    intro r hr
    apply lookupA_isSome_of_key
    show r.custom_id ∈ (prepareAux readFS base_dir files 1).2.map Prod.fst
    rw [prepare_keys readFS base_dir files 1]
    have : r.custom_id ∈ results.map (fun r => r.custom_id) :=
      List.mem_map_of_mem (fun r => r.custom_id) hr
    rw [hmatch] at this
    exact this
  obtain ⟨s2, heq, hproc, htr2, hw, hpres⟩ :=
    processResults_writes (prepare_batch_requests readFS base_dir prior files).2 base_dir
      results (wait_ended_state batch_id k fs0) hsucc hlook hcont
      (by intro r hr; simp [wait_ended_state]) hids hpaths
  have hrun := run_after_wait_ok retrieve (.ok results) batch_id
    (prepare_batch_requests readFS base_dir prior files).2 base_dir (fun _ => true)
    files k fuel fs0 results hpoll hend hfuel hfiles rfl
  rw [heq] at hrun
  rw [hrun]
  refine ⟨rfl, ?_, ?_⟩
  · show s2.processed = results.map (fun r => r.custom_id)
    rw [hproc]
    simp [wait_ended_state]
  · intro r hr
    show s2.outfs (targetPath (prepare_batch_requests readFS base_dir prior files).2 base_dir
      r.custom_id) = r.content.head?
    exact hw r hr

/-- Witness for `C4_success_outputs`: one file, one succeeded result; the
run ends normally and `/b/a-OPTIMIZED.md` contains exactly the returned
text. -/
theorem C4_success_outputs_witness :
    (process_batch_results (fun t => if t < 1 then .ok "in_progress" else .ok "ended")
        (.ok [{ custom_id := "req_1", rtype := "succeeded", content := ["HI"] }]) "b1"
        (prepare_batch_requests (fun _ => ReadOutcome.ok "hello") "/b" [] ["a.md"]).2 "/b"
        (fun _ => true) ["a.md"] 2 emptyFS).isNormal = true ∧
    (process_batch_results (fun t => if t < 1 then .ok "in_progress" else .ok "ended")
        (.ok [{ custom_id := "req_1", rtype := "succeeded", content := ["HI"] }]) "b1"
        (prepare_batch_requests (fun _ => ReadOutcome.ok "hello") "/b" [] ["a.md"]).2 "/b"
        (fun _ => true) ["a.md"] 2 emptyFS).state.outfs
      (targetPath (prepare_batch_requests (fun _ => ReadOutcome.ok "hello") "/b" [] ["a.md"]).2
        "/b" "req_1")
    = some "HI" :=
  ⟨(C4_success_outputs (fun _ => ReadOutcome.ok "hello") "/b" "b1" [] ["a.md"]
      [{ custom_id := "req_1", rtype := "succeeded", content := ["HI"] }]
      (fun t => if t < 1 then .ok "in_progress" else .ok "ended") 1 2 emptyFS
      (by intro t ht; interval_cases t <;> rfl) rfl (by omega) (List.cons_ne_nil _ _)
      (by decide) (by decide) (by decide) (by decide)).1,
    (C4_success_outputs (fun _ => ReadOutcome.ok "hello") "/b" "b1" [] ["a.md"]
      [{ custom_id := "req_1", rtype := "succeeded", content := ["HI"] }]
      (fun t => if t < 1 then .ok "in_progress" else .ok "ended") 1 2 emptyFS
      (by intro t ht; interval_cases t <;> rfl) rfl (by omega) (List.cons_ne_nil _ _)
      (by decide) (by decide) (by decide) (by decide)).2.2
      { custom_id := "req_1", rtype := "succeeded", content := ["HI"] } (by decide)⟩

/-! ## Claim C1 -/

/-- Whether the run re-raised an exception. -/
def RunOutcome.isRaised : RunOutcome → Bool
| .raised _ _ => true
| _ => false

/-- Claim C1, counterexample.  The claim says `process_batch_results` does not
terminate until every issued custom id has been marked processed.  With one
issued id (`req_1`) but an empty result stream, the status being `"ended"`,
the single result pass processes nothing and the `break` at line 118 exits
the loop unconditionally: the run terminates normally with `req_1` never
marked processed. -/
theorem C1_counterexample :
    (prepare_batch_requests (fun _ => ReadOutcome.ok "hello") "/b" [] ["a.md"]).1.map
        (fun r => r.custom_id) = ["req_1"] ∧
    (process_batch_results (fun _ => Except.ok "ended") (Except.ok []) "b1"
        (prepare_batch_requests (fun _ => ReadOutcome.ok "hello") "/b" [] ["a.md"]).2 "/b"
        (fun _ => true) ["a.md"] 3 emptyFS).isNormal = true ∧
    (process_batch_results (fun _ => Except.ok "ended") (Except.ok []) "b1"
        (prepare_batch_requests (fun _ => ReadOutcome.ok "hello") "/b" [] ["a.md"]).2 "/b"
        (fun _ => true) ["a.md"] 3 emptyFS).state.processed = [] := by
  refine ⟨by decide, by decide, by decide⟩

/-- Claim C1 (amended).  If the results fetched after the job ends carry
exactly the issued custom ids, each with a handled outcome (`"succeeded"`,
`"errored"` or `"expired"`, succeeded ones with non-empty content), then
every issued custom id is marked processed exactly once (the processed set
is duplicate-free and contains every issued id) and the run terminates
normally.  Without that completeness assumption the loop still exits after
its single pass over the results — see the counterexample — so issued ids
missing from the stream are never processed. -/
theorem C1_processed_once (readFS : String → ReadOutcome) (base_dir batch_id : String)
    (prior : List (String × String)) (files : List String) (results : List BatchResult)
    (retrieve : Nat → Except String String) (writeOk : String → Bool)
    (k fuel : Nat) (fs0 : OutFS)
    (hpoll : ∀ t, t < k → retrieve t = .ok "in_progress")
    (hend : retrieve k = .ok "ended")
    (hfuel : k + 1 ≤ fuel)
    (hfiles : files ≠ [])
    (hmatch : results.map (fun r => r.custom_id)
      = (prepare_batch_requests readFS base_dir prior files).1.map (fun r => r.custom_id))
    (htypes : ∀ r ∈ results,
      r.rtype = "succeeded" ∨ r.rtype = "errored" ∨ r.rtype = "expired")
    (hcont : ∀ r ∈ results, r.rtype = "succeeded" → r.content ≠ []) :
    (process_batch_results retrieve (.ok results) batch_id
        (prepare_batch_requests readFS base_dir prior files).2 base_dir writeOk
        files fuel fs0).isNormal = true ∧
    (process_batch_results retrieve (.ok results) batch_id
        (prepare_batch_requests readFS base_dir prior files).2 base_dir writeOk
        files fuel fs0).state.processed = results.map (fun r => r.custom_id) ∧
    ((process_batch_results retrieve (.ok results) batch_id
        (prepare_batch_requests readFS base_dir prior files).2 base_dir writeOk
        files fuel fs0).state.processed).Nodup ∧
    ∀ cid ∈ (prepare_batch_requests readFS base_dir prior files).1.map
        (fun r => r.custom_id),
      cid ∈ (process_batch_results retrieve (.ok results) batch_id
        (prepare_batch_requests readFS base_dir prior files).2 base_dir writeOk
        files fuel fs0).state.processed := by
  have hids : (results.map (fun r => r.custom_id)).Nodup := by
    rw [hmatch]
    exact prepare_ids_nodup readFS base_dir files 1
  have hok : ∀ r ∈ results, r.rtype = "succeeded" →
      (lookupA (prepare_batch_requests readFS base_dir prior files).2 r.custom_id).isSome
          = true ∧ r.content ≠ [] := by
    intro r hr hrt
    refine ⟨?_, hcont r hr hrt⟩
    apply lookupA_isSome_of_key
    show r.custom_id ∈ (prepareAux readFS base_dir files 1).2.map Prod.fst
    rw [prepare_keys readFS base_dir files 1]
    have h := List.mem_map_of_mem (fun r => r.custom_id) hr
    rw [hmatch] at h
    exact h
  obtain ⟨s2, heq, hproc, htr⟩ :=
    processResults_total (prepare_batch_requests readFS base_dir prior files).2 base_dir
      writeOk results (wait_ended_state batch_id k fs0) htypes hok
      (by intro r hr; simp [wait_ended_state]) hids
  have hrun := run_after_wait_ok retrieve (.ok results) batch_id
    (prepare_batch_requests readFS base_dir prior files).2 base_dir writeOk
    files k fuel fs0 results hpoll hend hfuel hfiles rfl
  rw [heq] at hrun
  rw [hrun]
  have hproc2 : s2.processed = results.map (fun r => r.custom_id) := by
    rw [hproc]
    simp [wait_ended_state]
  refine ⟨rfl, ?_, ?_, ?_⟩
  · exact hproc2
  · show s2.processed.Nodup
    rw [hproc2]
    exact hids
  · intro cid hcid
    show cid ∈ s2.processed
    rw [hproc2, hmatch]
    exact hcid

/-- Witness for `C1_processed_once`: one issued id, one errored result;
the id is processed exactly once and the run terminates. -/
theorem C1_processed_once_witness :
    (process_batch_results (fun _ => Except.ok "ended")
        (.ok [{ custom_id := "req_1", rtype := "errored", content := [] }]) "b1"
        (prepare_batch_requests (fun _ => ReadOutcome.ok "hello") "/b" [] ["a.md"]).2 "/b"
        (fun _ => true) ["a.md"] 1 emptyFS).isNormal = true ∧
    (process_batch_results (fun _ => Except.ok "ended")
        (.ok [{ custom_id := "req_1", rtype := "errored", content := [] }]) "b1"
        (prepare_batch_requests (fun _ => ReadOutcome.ok "hello") "/b" [] ["a.md"]).2 "/b"
        (fun _ => true) ["a.md"] 1 emptyFS).state.processed = ["req_1"] :=
  ⟨(C1_processed_once (fun _ => ReadOutcome.ok "hello") "/b" "b1" [] ["a.md"]
      [{ custom_id := "req_1", rtype := "errored", content := [] }]
      (fun _ => Except.ok "ended") (fun _ => true) 0 1 emptyFS
      (by omega) rfl (by omega) (List.cons_ne_nil _ _)
      (by decide) (by decide) (by decide)).1,
    by
      have h := (C1_processed_once (fun _ => ReadOutcome.ok "hello") "/b" "b1" [] ["a.md"]
        [{ custom_id := "req_1", rtype := "errored", content := [] }]
        (fun _ => Except.ok "ended") (fun _ => true) 0 1 emptyFS
        (by omega) rfl (by omega) (List.cons_ne_nil _ _)
        (by decide) (by decide) (by decide)).2.1
      simpa using h⟩

/-! ## Claim C6 -/

/-- Claim C6, counterexample.  The claim says an exception raised by the
service during the polling loop surfaces to the caller of `process_files`.
With a `retrieve` that raises on the first poll, the exception does
propagate out of `process_batch_results` (the run is `raised`), but
`process_files` catches every exception at lines 137-138, logs it, and
returns normally — its caller sees an ordinary return, not an exception. -/
theorem C6_counterexample :
    (process_batch_results (fun _ => Except.error "boom") (Except.ok []) "b1"
        (prepare_batch_requests (fun _ => ReadOutcome.ok "hello") "/b" [] ["a.md"]).2 "/b"
        (fun _ => true) ["a.md"] 3 emptyFS).isRaised = true ∧
    exceptIsOk (process_files (fun _ => ReadOutcome.ok "hello") "/b" (fun _ => .ok "b1")
        (fun _ => Except.error "boom") (Except.ok []) (fun _ => true) [] ["a.md"] 3 emptyFS)
      = true := by
  refine ⟨by decide, by decide⟩

lemma run_poll_raises (retrieve : Nat → Except String String)
    (fetchRes : Except String (List BatchResult)) (batch_id : String)
    (m : List (String × String)) (base_dir : String) (writeOk : String → Bool)
    (files : List String) (k fuel : Nat) (fs0 : OutFS) (e : String)
    (hpoll : ∀ t, t < k → retrieve t = .ok "in_progress")
    (herr : retrieve k = .error e)
    (hfuel : k + 1 ≤ fuel)
    (hfiles : files ≠ []) :
    process_batch_results retrieve fetchRes batch_id m base_dir writeOk files fuel fs0
      = .raised e
          { outfs := fs0
            processed := []
            log := waitLog batch_id k ++ [.error ("Error in batch processing: " ++ e)]
            trace := waitTrace k } := by
  unfold process_batch_results
  rw [show fuel = k + (fuel - k) by omega]
  rw [pollLoop_wait retrieve fetchRes batch_id m base_dir writeOk files.length k
    (fuel - k) 0 (initialState fs0) (fun j hj => by simpa using hpoll j hj)
    (by simpa [initialState] using List.length_pos.mpr hfiles)]
  obtain ⟨f2, hf2⟩ : ∃ f2, fuel - k = f2 + 1 := ⟨fuel - k - 1, by omega⟩
  rw [hf2]
  have hlen2 : (({ initialState fs0 with
      trace := (initialState fs0).trace ++ waitTrace k
      log := (initialState fs0).log ++ waitLog batch_id k } : RunState)).processed.length
      < files.length := by
    simpa [initialState] using List.length_pos.mpr hfiles
  simp only [pollLoop, hlen2, if_pos, Nat.zero_add, herr]
  rfl

/-- Claim C6 (amended).  An exception from the external service during
submission or during the polling loop stops the run and is logged, but
never surfaces to the caller of `process_files`.  Two cases.  (1) The
submission call `batches.create` raises: the exception is caught directly
by `process_files`' own `try/except` (the run never starts, so it does not
pass through `process_batch_results`), logged once, and `process_files`
returns normally.  (2) A status poll raises — after any number `k` of
`"in_progress"` polls: `process_batch_results` logs the error and
re-raises, the exception surfaces to its caller `process_files`, which
catches it, logs the same message again, and returns normally. -/
theorem C6_exception_swallowed (readFS : String → ReadOutcome) (base_dir batch_id : String)
    (create : List Request → Except String String)
    (retrieve : Nat → Except String String)
    (fetchRes : Except String (List BatchResult)) (writeOk : String → Bool)
    (prior : List (String × String)) (files : List String) (k fuel : Nat) (fs0 : OutFS)
    (e : String)
    (hreq : (prepare_batch_requests readFS base_dir prior files).1 ≠ [])
    (hfiles : files ≠ [])
    (hfuel : k + 1 ≤ fuel) :
    (create (prepare_batch_requests readFS base_dir prior files).1 = .error e →
      process_files readFS base_dir create retrieve fetchRes writeOk prior files fuel fs0
        = .ok { createCalled := true
                run := none
                outfs := fs0
                log := [.error ("Error in batch processing: " ++ e)] }) ∧
    ((∀ t, t < k → retrieve t = .ok "in_progress") →
      retrieve k = .error e →
      create (prepare_batch_requests readFS base_dir prior files).1 = .ok batch_id →
      process_batch_results retrieve fetchRes batch_id
          (prepare_batch_requests readFS base_dir prior files).2 base_dir writeOk
          files fuel fs0
        = .raised e
            { outfs := fs0
              processed := []
              log := waitLog batch_id k ++ [.error ("Error in batch processing: " ++ e)]
              trace := waitTrace k } ∧
      process_files readFS base_dir create retrieve fetchRes writeOk prior files fuel fs0
        = .ok { createCalled := true
                run := some (.raised e
                  { outfs := fs0
                    processed := []
                    log := waitLog batch_id k
                      ++ [.error ("Error in batch processing: " ++ e)]
                    trace := waitTrace k })
                outfs := fs0
                log := waitLog batch_id k
                  ++ [.error ("Error in batch processing: " ++ e),
                      .error ("Error in batch processing: " ++ e)] }) := by
  have hisE : (prepare_batch_requests readFS base_dir prior files).1.isEmpty = false := by
    cases h : (prepare_batch_requests readFS base_dir prior files).1 with
    | nil => exact absurd h hreq
    | cons a l => rfl
  constructor
  · intro hcreateErr
    unfold process_files
    simp only [hisE, Bool.false_eq_true, if_false, hcreateErr]
  · intro hpoll herr hcreate
    have hrun := run_poll_raises retrieve fetchRes batch_id
      (prepare_batch_requests readFS base_dir prior files).2 base_dir writeOk
      files k fuel fs0 e hpoll herr hfuel hfiles
    refine ⟨hrun, ?_⟩
    unfold process_files
    simp only [hisE, Bool.false_eq_true, if_false, hcreate, hrun]
    simp [List.append_assoc]

/-- Witness for `C6_exception_swallowed`, exercising both cases: a
submission call that raises `"boom"` (logged once, normal return), and a
poll that raises `"boom"` after one `"in_progress"` poll (run raised,
logged twice, normal return). -/
theorem C6_exception_swallowed_witness :
    process_files (fun _ => ReadOutcome.ok "hello") "/b" (fun _ => .error "boom")
        (fun _ => .ok "ended") (.ok []) (fun _ => true) [] ["a.md"] 1 emptyFS
      = .ok { createCalled := true
              run := none
              outfs := emptyFS
              log := [.error ("Error in batch processing: " ++ "boom")] } ∧
    (process_batch_results (fun t => if t < 1 then .ok "in_progress" else .error "boom")
        (.ok []) "b1"
        (prepare_batch_requests (fun _ => ReadOutcome.ok "hello") "/b" [] ["a.md"]).2 "/b"
        (fun _ => true) ["a.md"] 2 emptyFS
      = .raised "boom"
          { outfs := emptyFS
            processed := []
            log := waitLog "b1" 1 ++ [.error ("Error in batch processing: " ++ "boom")]
            trace := waitTrace 1 } ∧
     process_files (fun _ => ReadOutcome.ok "hello") "/b" (fun _ => .ok "b1")
        (fun t => if t < 1 then .ok "in_progress" else .error "boom") (.ok [])
        (fun _ => true) [] ["a.md"] 2 emptyFS
      = .ok { createCalled := true
              run := some (.raised "boom"
                { outfs := emptyFS
                  processed := []
                  log := waitLog "b1" 1
                    ++ [.error ("Error in batch processing: " ++ "boom")]
                  trace := waitTrace 1 })
              outfs := emptyFS
              log := waitLog "b1" 1
                ++ [.error ("Error in batch processing: " ++ "boom"),
                    .error ("Error in batch processing: " ++ "boom")] }) :=
  ⟨(C6_exception_swallowed (fun _ => ReadOutcome.ok "hello") "/b" "b1"
      (fun _ => .error "boom") (fun _ => .ok "ended") (.ok []) (fun _ => true) []
      ["a.md"] 0 1 emptyFS "boom"
      (by decide) (List.cons_ne_nil _ _) (by omega)).1 rfl,
   (C6_exception_swallowed (fun _ => ReadOutcome.ok "hello") "/b" "b1"
      (fun _ => .ok "b1") (fun t => if t < 1 then .ok "in_progress" else .error "boom")
      (.ok []) (fun _ => true) [] ["a.md"] 1 2 emptyFS "boom"
      (by decide) (List.cons_ne_nil _ _) (by omega)).2
      (by intro t ht; interval_cases t <;> rfl) rfl rfl⟩
